import Mathlib

/-!
Verification development for the raiden payment-channel node.

Shallow embedding of:
* `raiden/api/objects.py` — `FlatList.data`;
* `raiden/ui/console.py` — `ConsoleTools.wait_for_contract`;
* `raiden/tests/integration/test_e2e.py` — `mediated_transfer_almost_equal`,
  `assert_path_mediated_transfer`, `check_nested_attrs`, `must_contain_entry`;
* the mediated-transfer core (channel ledger, route model, mediator state
  machine, WAL dispatcher), which is not part of the sampled sources and is
  therefore modelled from the specification.

Addresses, tokens, hashes, secrets and identifiers are modelled as `Nat`.
-/

namespace Raiden

/-! ## FlatList (`raiden/api/objects.py`) -/

/-- Embedding of `FlatList`, a Python class inheriting from `list`.  The
subclasses `ChannelList`, `TokensList`, `AddressList`, `PartnersPerTokenList`
and `EventsList` add no behaviour, so a single parametric structure models all
of them; `elems` are the list elements the instance inherits. -/
structure FlatList (α : Type) where
  elems : List α
deriving DecidableEq, Repr

/-- Embedding of the `data` property: `return list(self)` builds a fresh list
by consing every element of `self` in order, modelled by a fold that rebuilds
the element list cell by cell. -/
def FlatList.data (xs : FlatList α) : List α :=
  xs.elems.foldr List.cons []

/-! ## `ConsoleTools.wait_for_contract` (`raiden/ui/console.py`)

The loop polls `web3.eth.getCode` and `time.time()`.  Both are external
effects, modelled as traces: `code k` is the length of the byte string
returned by the `k`-th `getCode` call and `times k` the value of the `k`-th
`time.time()` call.  `time.time()` is called once before the first `getCode`
(`start_time`), once right after it, and once more at the end of every loop
iteration, so on entering the loop body with the result of `getCode` call `k`
the current time is `times (k+1)` and `start_time = times 0`.  The loop may
run forever, so the embedding takes fuel and returns `none` on exhaustion. -/

/-- Embedding of the Python truthiness test `if timeout and start_time +
timeout > current_time`: `None` and `0` are falsy. -/
def timeoutGuard (timeout : Option Nat) (start current : Nat) : Bool :=
  match timeout with
  | none => false
  | some t => decide (t ≠ 0) && decide (start + t > current)

/-- Embedding of the `while len(result) == 0` loop of `wait_for_contract`,
entered with the result of `getCode` call `k`. -/
def waitForContractLoop (code times : Nat → Nat) (timeout : Option Nat) :
    Nat → Nat → Option Bool
  | 0, _ => none
  | fuel + 1, k =>
    if code k = 0 then
      if timeoutGuard timeout (times 0) (times (k + 1)) then
        some false
      else
        waitForContractLoop code times timeout fuel (k + 1)
    else
      some true

/-- Embedding of `ConsoleTools.wait_for_contract`: fetch the code once, then
loop while it is empty; on a non-empty result return `len(result) > 0`,
i.e. `True`. -/
def wait_for_contract (code times : Nat → Nat) (timeout : Option Nat)
    (fuel : Nat) : Option Bool :=
  waitForContractLoop code times timeout fuel 0

/-! ## Path assertions of `test_e2e.py` -/

/-- Lock of a mediated-transfer message: `{amount, hashlock, expiration}`. -/
structure Lock where
  amount : Nat
  hashlock : Nat
  expiration : Nat
deriving DecidableEq, Repr

/-- Fields of a `MediatedTransfer` message used by the path assertions. -/
structure MediatedTransfer where
  identifier : Nat
  token : Nat
  lock : Lock
  target : Nat
  initiator : Nat
  sender : Nat
  recipient : Nat
deriving DecidableEq, Repr

/-- Embedding of `mediated_transfer_almost_equal` as the conjunction of the
six equalities it asserts. -/
def mediated_transfer_almost_equal (first second : MediatedTransfer) : Bool :=
  decide (first.identifier = second.identifier) &&
  decide (first.token = second.token) &&
  decide (first.lock.amount = second.lock.amount) &&
  decide (first.lock.hashlock = second.lock.hashlock) &&
  decide (first.target = second.target) &&
  decide (first.initiator = second.initiator)

/-- Check of one adjacent pair inside `assert_path_mediated_transfer`:
almost-equality, `first.recipient == second.sender`, and
`first.lock.expiration > second.lock.expiration`. -/
def pathPairOk (first second : MediatedTransfer) : Bool :=
  mediated_transfer_almost_equal first second &&
  decide (first.recipient = second.sender) &&
  decide (first.lock.expiration > second.lock.expiration)

/-- Embedding of `assert_path_mediated_transfer`: the `isinstance` check holds
by typing, and `zip(transfers[:-1], transfers[1:])` enumerates exactly the
adjacent pairs. -/
def assert_path_mediated_transfer : List MediatedTransfer → Bool
  | [] => true
  | [_] => true
  | first :: second :: rest =>
    pathPairOk first second && assert_path_mediated_transfer (second :: rest)

/-! ## `check_nested_attrs` / `must_contain_entry` (`test_e2e.py`)

Python attribute values are modelled by `Value`: either an atom (number,
address, ...) or an object with named attributes.  The expected-`data`
dictionary is modelled by `Pattern`: a value compared with `==`, or a nested
dictionary recursed into (the `isinstance(value, dict)` branch).  `getattr`
on a missing attribute, or on an atom, raises `AttributeError`; raising is
modelled by `Option`, with `none` standing for a propagated exception. -/

/-- Runtime value of an item attribute: an atom or an object whose attributes
are an association list from names (modelled as `Nat`) to values. -/
inductive Value where
  | atom : Nat → Value
  | obj : List (Nat × Value) → Value

/-- Expected-data entry of `must_contain_entry`: a plain value compared with
`==`, or a nested dictionary matched recursively. -/
inductive Pattern where
  | pval : Value → Pattern
  | pdict : List (Nat × Pattern) → Pattern

mutual

/-- Decidable equality of attribute values (the nested list blocks the
automatic derivation). -/
def Value.decEq : (a b : Value) → Decidable (a = b)
  | Value.atom x, Value.atom y =>
    match Nat.decEq x y with
    | isTrue h => isTrue (by rw [h])
    | isFalse h => isFalse (fun hh => by cases hh; exact h rfl)
  | Value.atom _, Value.obj _ => isFalse (by intro h; cases h)
  | Value.obj _, Value.atom _ => isFalse (by intro h; cases h)
  | Value.obj xs, Value.obj ys =>
    match Value.decEqList xs ys with
    | isTrue h => isTrue (by rw [h])
    | isFalse h => isFalse (fun hh => by cases hh; exact h rfl)

/-- Decidable equality of attribute association lists. -/
def Value.decEqList : (xs ys : List (Nat × Value)) → Decidable (xs = ys)
  | [], [] => isTrue rfl
  | [], _ :: _ => isFalse (by intro h; cases h)
  | _ :: _, [] => isFalse (by intro h; cases h)
  | (n, v) :: xs, (m, w) :: ys =>
    match Nat.decEq n m, Value.decEq v w, Value.decEqList xs ys with
    | isTrue h1, isTrue h2, isTrue h3 => isTrue (by rw [h1, h2, h3])
    | isFalse h1, _, _ =>
      isFalse (fun hh => by cases hh; exact h1 rfl)
    | _, isFalse h2, _ =>
      isFalse (fun hh => by cases hh; exact h2 rfl)
    | _, _, isFalse h3 =>
      isFalse (fun hh => by cases hh; exact h3 rfl)

end

instance : DecidableEq Value := Value.decEq

mutual

/-- Decidable equality of patterns. -/
def Pattern.decEq : (a b : Pattern) → Decidable (a = b)
  | Pattern.pval x, Pattern.pval y =>
    match Value.decEq x y with
    | isTrue h => isTrue (by rw [h])
    | isFalse h => isFalse (fun hh => by cases hh; exact h rfl)
  | Pattern.pval _, Pattern.pdict _ => isFalse (by intro h; cases h)
  | Pattern.pdict _, Pattern.pval _ => isFalse (by intro h; cases h)
  | Pattern.pdict xs, Pattern.pdict ys =>
    match Pattern.decEqList xs ys with
    | isTrue h => isTrue (by rw [h])
    | isFalse h => isFalse (fun hh => by cases hh; exact h rfl)

/-- Decidable equality of pattern association lists. -/
def Pattern.decEqList : (xs ys : List (Nat × Pattern)) → Decidable (xs = ys)
  | [], [] => isTrue rfl
  | [], _ :: _ => isFalse (by intro h; cases h)
  | _ :: _, [] => isFalse (by intro h; cases h)
  | (n, v) :: xs, (m, w) :: ys =>
    match Nat.decEq n m, Pattern.decEq v w, Pattern.decEqList xs ys with
    | isTrue h1, isTrue h2, isTrue h3 => isTrue (by rw [h1, h2, h3])
    | isFalse h1, _, _ =>
      isFalse (fun hh => by cases hh; exact h1 rfl)
    | _, isFalse h2, _ =>
      isFalse (fun hh => by cases hh; exact h2 rfl)
    | _, _, isFalse h3 =>
      isFalse (fun hh => by cases hh; exact h3 rfl)

end

instance : DecidableEq Pattern := Pattern.decEq

/-- Embedding of `getattr(item, name)`: the first binding of `name` on an
object, and `none` (an `AttributeError`) on a missing attribute or an atom. -/
def getattr : Value → Nat → Option Value
  | Value.atom _, _ => none
  | Value.obj attrs, name => (attrs.find? (fun p => p.1 = name)).map Prod.snd

/-- Embedding of `check_nested_attrs(item, data)`: iterate the `(name, value)`
pairs of `data`; a dict value recurses into the attribute, any other value is
compared with `==`; `none` models a propagated `AttributeError`. -/
def check_nested_attrs (item : Value) : List (Nat × Pattern) → Option Bool
  | [] => some true
  | (name, p) :: rest =>
    match getattr item name with
    | none => none
    | some itemValue =>
      match p with
      | Pattern.pval v =>
        if itemValue = v then check_nested_attrs item rest else some false
      | Pattern.pdict d =>
        match check_nested_attrs itemValue d with
        | none => none
        | some false => some false
        | some true => check_nested_attrs item rest
termination_by data => sizeOf data

/-- Item of the `item_list` argument: a runtime type tag (the `isinstance`
check compares tags) together with the attribute value. -/
structure Item where
  tag : Nat
  val : Value
deriving DecidableEq

/-- Embedding of `must_contain_entry(item_list, type_, data)`: scan the list,
and on each item of the matching type run `check_nested_attrs`; `none` models
a propagated `AttributeError`. -/
def must_contain_entry (itemList : List Item) (type_ : Nat)
    (data : List (Nat × Pattern)) : Option Bool :=
  match itemList with
  | [] => some false
  | item :: rest =>
    if item.tag = type_ then
      match check_nested_attrs item.val data with
      | none => none
      | some true => some true
      | some false => must_contain_entry rest type_ data
    else
      must_contain_entry rest type_ data

/-- Spec-side matching predicate, written from the claim's words: the item's
attributes recursively equal every `(name, value)` pair of `data`, nested
dictionaries matched recursively (a missing attribute does not match). -/
def matchesData : Value → List (Nat × Pattern) → Bool
  | _, [] => true
  | item, (name, p) :: rest =>
    (match getattr item name with
     | none => false
     | some itemValue =>
       match p with
       | Pattern.pval v => decide (itemValue = v)
       | Pattern.pdict d => matchesData itemValue d) &&
    matchesData item rest
termination_by _ data => sizeOf data

/-! ## Channel ledger

Modelled from the spec: the channel-ledger module (`apply_balance_proof`,
`add_lock`, `remove_lock`, deposits) is not among the sampled sources — only
its tests are — so it is embedded from sections 3 and 4.1 of the
specification.  The ledger is viewed from one side: the sender's balance
proof (`own_transferred`, `own_nonce`) and the pending locks the sender has
promised.  Signature verification is abstracted into a validity bit carried
by the proof. -/

/-- Errors of the channel-ledger contract (spec section 4.1). -/
inductive ChannelError where
  | InvalidSignature
  | StaleNonce
  | OverspendDeposit
  | DuplicateHashlock
  | InsufficientBalance
  | UnknownHashlock
deriving DecidableEq, Repr

/-- Modelled from the spec: `BalanceProof` with per-channel per-sender nonce
and cumulative transferred amount; the signature of the wire message is
abstracted to the bit `signature_valid` (the crypto adapter's verdict). -/
structure BalanceProof where
  nonce : Nat
  transferred_amount : Nat
  signature_valid : Bool
deriving DecidableEq, Repr

/-- Modelled from the spec: the sender's view of a channel — both deposits,
the last accepted nonce and transferred amount of the sender's own balance
proof, and the pending locks. -/
structure Channel where
  own_deposit : Nat
  partner_deposit : Nat
  own_nonce : Nat
  own_transferred : Nat
  pending_locks : List Lock
deriving DecidableEq, Repr

/-- Sum of the amounts of all pending locks of a channel. -/
def lockSum (ch : Channel) : Nat :=
  (ch.pending_locks.map Lock.amount).sum

/-- Test for a pending lock with the given hashlock. -/
def hasLock (ch : Channel) (hl : Nat) : Bool :=
  ch.pending_locks.any (fun l => l.hashlock = hl)

/-- No-overspend invariant of spec section 3: the sender's recorded
transferred amount plus all pending lock amounts never exceeds the total
escrowed value. -/
def channelInvariant (ch : Channel) : Prop :=
  ch.own_transferred + lockSum ch ≤ ch.own_deposit + ch.partner_deposit

/-- Modelled from the spec: `apply_balance_proof` fails with
`InvalidSignature`, `StaleNonce` or `OverspendDeposit` when the signature is
bad, the nonce is not strictly above the last accepted one, the transferred
amount regresses, or the new transferred amount plus the pending locks would
exceed the deposits; otherwise it records nonce and transferred amount. -/
def apply_balance_proof (ch : Channel) (proof : BalanceProof) :
    Except ChannelError Channel :=
  if proof.signature_valid = false then
    Except.error ChannelError.InvalidSignature
  else if proof.nonce ≤ ch.own_nonce then
    Except.error ChannelError.StaleNonce
  else if proof.transferred_amount < ch.own_transferred then
    Except.error ChannelError.OverspendDeposit
  else if ch.own_deposit + ch.partner_deposit
      < proof.transferred_amount + lockSum ch then
    Except.error ChannelError.OverspendDeposit
  else
    Except.ok { ch with
      own_nonce := proof.nonce,
      own_transferred := proof.transferred_amount }

/-- Modelled from the spec: `add_lock` fails with `DuplicateHashlock` when a
pending lock already carries the hashlock and with `InsufficientBalance`
when the added amount would violate the deposit invariant. -/
def add_lock (ch : Channel) (l : Lock) : Except ChannelError Channel :=
  if hasLock ch l.hashlock then
    Except.error ChannelError.DuplicateHashlock
  else if ch.own_deposit + ch.partner_deposit
      < ch.own_transferred + lockSum ch + l.amount then
    Except.error ChannelError.InsufficientBalance
  else
    Except.ok { ch with pending_locks := ch.pending_locks ++ [l] }

/-- Modelled from the spec: `remove_lock` fails with `UnknownHashlock` when
no pending lock carries the hashlock, else drops the lock. -/
def remove_lock (ch : Channel) (hl : Nat) : Except ChannelError Channel :=
  if hasLock ch hl then
    Except.ok { ch with
      pending_locks := ch.pending_locks.filter (fun l => ¬ l.hashlock = hl) }
  else
    Except.error ChannelError.UnknownHashlock

/-- Modelled from the spec: a `ChannelNewDeposit` chain fact carries the new
total deposit of one participant; on-chain total deposits only grow, so a
regressing (stale) notice is ignored. -/
def apply_deposit (ch : Channel) (own : Bool) (newTotal : Nat) : Channel :=
  if own then
    { ch with own_deposit := max ch.own_deposit newTotal }
  else
    { ch with partner_deposit := max ch.partner_deposit newTotal }

/-- Ledger operations a channel is exposed to: deposits, lock additions and
removals, and balance proofs. -/
inductive ChannelOp where
  | deposit (own : Bool) (newTotal : Nat)
  | addLock (l : Lock)
  | removeLock (hl : Nat)
  | applyProof (p : BalanceProof)
deriving DecidableEq, Repr

/-- One ledger step: a rejected operation (spec section 7, protocol-violation
errors are non-fatal) leaves the channel unchanged. -/
def channelStep (ch : Channel) (op : ChannelOp) : Channel :=
  match op with
  | ChannelOp.deposit own t => apply_deposit ch own t
  | ChannelOp.addLock l =>
    match add_lock ch l with
    | Except.ok ch2 => ch2
    | Except.error _ => ch
  | ChannelOp.removeLock hl =>
    match remove_lock ch hl with
    | Except.ok ch2 => ch2
    | Except.error _ => ch
  | ChannelOp.applyProof p =>
    match apply_balance_proof ch p with
    | Except.ok ch2 => ch2
    | Except.error _ => ch

/-- Channel created by an on-chain channel-opened fact: no deposits, no
transfers, no locks. -/
def initialChannel : Channel :=
  { own_deposit := 0, partner_deposit := 0, own_nonce := 0,
    own_transferred := 0, pending_locks := [] }

/-- Fold of a sequence of ledger operations from a starting channel. -/
def runChannelOps (ch : Channel) (ops : List ChannelOp) : Channel :=
  ops.foldl channelStep ch

/-! ## Route model

Modelled from the spec: the route model (`next_route` and `RoutesState`,
spec sections 3 and 4.2) is not among the sampled sources; `test_e2e.py`
only inspects `RouteState` snapshots recorded in the WAL. -/

/-- Modelled from the spec: a `Route` snapshot of a candidate outgoing
channel. -/
structure Route where
  node_address : Nat
  channel_identifier : Nat
  available_balance : Nat
  settle_timeout : Nat
  reveal_timeout : Nat
  closed_block : Option Nat
deriving DecidableEq, Repr

/-- Modelled from the spec: `RoutesState` keeps four disjoint ordered
sequences; only `available` matters for selection. -/
structure RoutesState where
  available : List Route
  ignored : List Route
  refunded : List Route
  canceled : List Route
deriving DecidableEq, Repr

/-- Qualification test of `next_route`: the route meets the balance
requirement and its channel is not excluded. -/
def routeQualifies (r : Route) (exclude : List Nat) (required : Nat) : Bool :=
  decide (required ≤ r.available_balance) &&
  ! exclude.contains r.channel_identifier

/-- Modelled from the spec: `next_route` walks the available sequence in the
order supplied by the router and returns the first qualifying route, or
`none` when no route qualifies. -/
def next_route (available : List Route) (exclude : List Nat)
    (required : Nat) : Option Route :=
  match available with
  | [] => none
  | r :: rest =>
    if routeQualifies r exclude required then some r
    else next_route rest exclude required

/-! ## Protocol events -/

/-- Events emitted by the role state machines (spec section 6); each carries
the fields the claims inspect. -/
inductive Event where
  | SendMediatedTransfer (receiver hashlock amount expiration : Nat)
  | SendRevealSecret (receiver secret : Nat)
  | SendSecretRequest (receiver hashlock amount : Nat)
  | SendBalanceProof (receiver hashlock : Nat)
  | SendTransferRefund (receiver hashlock : Nat)
  | EventTransferSentFailed
  | EventUnlockSuccess (hashlock : Nat)
deriving DecidableEq, Repr

/-! ## Initiator route commitment

Modelled from the spec: the initiator reducer (`ActionInitInitiator`
handling, spec section 4.3) is not among the sampled sources.  Only the
route-commitment step matters for the claims. -/

/-- Lifecycle phases of the initiator (spec section 4.3). -/
inductive InitiatorPhase where
  | init
  | route_selected
  | revealed_secret
  | completed
  | failed
deriving DecidableEq, Repr

/-- Initiator state after handling `ActionInitInitiator`: its phase and the
route it committed to, if any. -/
structure InitiatorState where
  phase : InitiatorPhase
  committed : Option Route
deriving DecidableEq, Repr

/-- Modelled from the spec: on `ActionInitInitiator` the initiator selects a
route via `next_route` with `required_balance = amount` and an empty
exclusion set; no route means terminal `failed` with
`EventTransferSentFailed`, otherwise it commits to the selected route, adds
the lock and emits `SendMediatedTransfer` to the route's peer. -/
def initInitiator (amount hashlock expiration : Nat) (routes : RoutesState) :
    InitiatorState × List Event :=
  match next_route routes.available [] amount with
  | none =>
    ({ phase := InitiatorPhase.failed, committed := none },
     [Event.EventTransferSentFailed])
  | some r =>
    ({ phase := InitiatorPhase.route_selected, committed := some r },
     [Event.SendMediatedTransfer r.node_address hashlock amount expiration])

/-! ## Mediator state machine

Modelled from the spec: the mediator reducer (spec section 4.4) is not among
the sampled sources; `test_e2e.py` only observes its WAL entries.  The hash
of the crypto adapter is a parameter `h` of the step function.  The mediator
owns the pending locks of its incoming and outgoing channels for the
mediated transfer and the candidate outgoing routes. -/

/-- Lifecycle phases of the mediator (spec section 4.4). -/
inductive MediatorPhase where
  | init
  | forwarded
  | revealing
  | completed
  | failed
deriving DecidableEq, Repr

/-- Modelled from the spec: the transfer descriptor of a mediated
transfer. -/
structure TransferDesc where
  identifier : Nat
  token : Nat
  amount : Nat
  initiator : Nat
  target : Nat
  hashlock : Nat
  expiration : Nat
deriving DecidableEq, Repr

/-- Modelled from the spec: state of one mediator instance —
`ActionInitMediator`'s `from_route`/`from_transfer`, the candidate outgoing
routes, the channels' pending locks for this transfer, the channel
identifiers already tried, and the protocol safety margin. -/
structure MediatorState where
  phase : MediatorPhase
  from_route : Route
  from_transfer : TransferDesc
  routes : List Route
  outgoing_route : Option Route
  incoming_locks : List Lock
  outgoing_locks : List Lock
  tried : List Nat
  reveal_timeout_margin : Nat
deriving DecidableEq, Repr

/-- Inputs of the mediator state machine: its init action, a secret reveal
from the downstream peer, the upstream balance-proof unlock, and a block
advance. -/
inductive MediatorInput where
  | initMediator
  | receiveSecretRevealDownstream (secret : Nat)
  | receiveBalanceProofUpstream
  | blockAdvance (blockNumber : Nat)
deriving DecidableEq, Repr

/-- Route-selection helper of the mediator: exclude the incoming channel and
every channel already tried. -/
def mediatorExclude (s : MediatorState) : List Nat :=
  s.from_route.channel_identifier :: s.tried

/-- Forwarding step shared by init and retry: pick the next outgoing route;
none available means a refund upstream and terminal `failed`, otherwise add
the mirrored lock with reduced expiration and emit `SendMediatedTransfer`
downstream. -/
def mediatorForward (s : MediatorState) : MediatorState × List Event :=
  match next_route s.routes (mediatorExclude s) s.from_transfer.amount with
  | none =>
    ({ s with phase := MediatorPhase.failed },
     [Event.SendTransferRefund s.from_route.node_address
        s.from_transfer.hashlock])
  | some r =>
    let exp := s.from_transfer.expiration - s.reveal_timeout_margin
    ({ s with
        phase := MediatorPhase.forwarded,
        outgoing_route := some r,
        tried := r.channel_identifier :: s.tried,
        outgoing_locks := s.outgoing_locks ++
          [{ amount := s.from_transfer.amount,
             hashlock := s.from_transfer.hashlock,
             expiration := exp }] },
     [Event.SendMediatedTransfer r.node_address s.from_transfer.hashlock
        s.from_transfer.amount exp])

/-- Expiration of the currently pending outgoing lock, if any. -/
def outgoingExpiration (s : MediatorState) : Option Nat :=
  (s.outgoing_locks.find? (fun l => l.hashlock = s.from_transfer.hashlock)).map
    Lock.expiration

/-- Modelled from the spec: one step of the mediator state machine (spec
section 4.4), parameterised by the hash function `h` of the crypto adapter.
On a downstream secret reveal that hashes to the pending hashlock the
mediator first applies the outgoing balance proof and removes the outgoing
lock, and only then mirrors the reveal upstream; a mismatching secret is
discarded.  Block advance past the outgoing expiration abandons the attempt
and retries while the incoming lock is alive, else refunds upstream. -/
def mediatorStep (h : Nat → Nat) (s : MediatorState) (input : MediatorInput) :
    MediatorState × List Event :=
  match input, s.phase with
  | MediatorInput.initMediator, MediatorPhase.init =>
    mediatorForward s
  | MediatorInput.receiveSecretRevealDownstream secret,
    MediatorPhase.forwarded =>
    if h secret = s.from_transfer.hashlock then
      let s2 := { s with
        phase := MediatorPhase.revealing,
        outgoing_locks := s.outgoing_locks.filter
          (fun l => ¬ l.hashlock = s.from_transfer.hashlock) }
      (s2,
       [Event.SendBalanceProof
          ((s.outgoing_route.map Route.node_address).getD 0)
          s.from_transfer.hashlock,
        Event.SendRevealSecret s.from_route.node_address secret])
    else
      (s, [])
  | MediatorInput.receiveBalanceProofUpstream, MediatorPhase.revealing =>
    ({ s with
        phase := MediatorPhase.completed,
        incoming_locks := s.incoming_locks.filter
          (fun l => ¬ l.hashlock = s.from_transfer.hashlock) },
     [])
  | MediatorInput.blockAdvance n, MediatorPhase.forwarded =>
    match outgoingExpiration s with
    | some exp =>
      if exp < n then
        let s2 := { s with
          outgoing_locks := s.outgoing_locks.filter
            (fun l => ¬ l.hashlock = s.from_transfer.hashlock) }
        if n < s.from_transfer.expiration then
          mediatorForward s2
        else
          ({ s2 with phase := MediatorPhase.failed },
           [Event.SendTransferRefund s.from_route.node_address
              s.from_transfer.hashlock])
      else
        (s, [])
    | none => (s, [])
  | _, _ => (s, [])

/-! ## WAL dispatcher

Modelled from the spec: the state manager (spec section 4.6) is not among
the sampled sources.  `dispatch` applies one state change to the aggregate
state — every channel on a block advance, a single channel on a ledger
change — and returns the new state with the emitted events; unknown state
changes are rejected without being applied. -/

/-- Aggregate state: the channels keyed by channel identifier and the last
observed block number. -/
structure AggregateState where
  channels : List (Nat × Channel)
  block_number : Nat
deriving DecidableEq, Repr

/-- State changes consumed by the dispatcher: a ledger operation addressed
to one channel, a monotonic block advance, or an unknown (malformed) state
change. -/
inductive StateChange where
  | channelOp (channel_identifier : Nat) (op : ChannelOp)
  | block (blockNumber : Nat)
  | unknown
deriving DecidableEq, Repr

/-- Aggregate state before any state change is applied. -/
def emptyAggregate : AggregateState :=
  { channels := [], block_number := 0 }

/-- Modelled from the spec: `dispatch(aggregate_state, state_change)` is a
total, deterministic, side-effect-free function from the pair to the new
aggregate state and the emitted events; an unknown state change is rejected
(never partially applied). -/
def dispatch (s : AggregateState) (c : StateChange) :
    AggregateState × List Event :=
  match c with
  | StateChange.channelOp cid op =>
    let upd := fun (p : Nat × Channel) =>
      if p.1 = cid then (p.1, channelStep p.2 op) else p
    ({ s with channels := s.channels.map upd }, [])
  | StateChange.block n =>
    ({ s with block_number := max s.block_number n }, [])
  | StateChange.unknown => (s, [])

/-- Replay of a WAL log: fold `dispatch` over the ordered state changes from
the empty initial aggregate state, discarding the re-emitted events. -/
def replay (log : List StateChange) : AggregateState :=
  log.foldl (fun s c => (dispatch s c).1) emptyAggregate

/-- Test for a lock with the given hashlock in a plain lock list. -/
def lockListHas (locks : List Lock) (hl : Nat) : Bool :=
  locks.any (fun l => l.hashlock = hl)

/-! ## Concrete scenario data -/

/-- Concrete route with too little balance for a 5-token transfer. -/
def routeLowBalance : Route :=
  { node_address := 11, channel_identifier := 21, available_balance := 3,
    settle_timeout := 50, reveal_timeout := 5, closed_block := none }

/-- Concrete route with enough balance for a 5-token transfer. -/
def routeEnoughBalance : Route :=
  { node_address := 12, channel_identifier := 22, available_balance := 9,
    settle_timeout := 50, reveal_timeout := 5, closed_block := none }

/-- Concrete routes state whose available sequence lists the low-balance
route first. -/
def scenarioRoutes : RoutesState :=
  { available := [routeLowBalance, routeEnoughBalance],
    ignored := [], refunded := [], canceled := [] }

/-- Concrete channel used by the balance-proof witness. -/
def scenarioChannel : Channel :=
  { own_deposit := 10, partner_deposit := 10, own_nonce := 4,
    own_transferred := 2, pending_locks := [] }

/-- Concrete replayed balance proof (nonce equal to the last accepted). -/
def scenarioStaleProof : BalanceProof :=
  { nonce := 4, transferred_amount := 3, signature_valid := true }

/-- Concrete upstream route of the mediator scenario. -/
def scenarioFromRoute : Route :=
  { node_address := 30, channel_identifier := 40, available_balance := 9,
    settle_timeout := 50, reveal_timeout := 5, closed_block := none }

/-- Concrete downstream route of the mediator scenario. -/
def scenarioOutgoingRoute : Route :=
  { node_address := 32, channel_identifier := 41, available_balance := 9,
    settle_timeout := 50, reveal_timeout := 5, closed_block := none }

/-- Concrete transfer descriptor of the mediator scenario: hashlock `8`,
where `8 = Nat.succ 7` models the hash of secret `7`. -/
def scenarioTransfer : TransferDesc :=
  { identifier := 1, token := 2, amount := 5, initiator := 31, target := 33,
    hashlock := 8, expiration := 40 }

/-- Concrete mediator in the `forwarded` phase, holding the mirrored
outgoing lock for hashlock `8` next to an unrelated lock with hashlock
`9`. -/
def scenarioMediator : MediatorState :=
  { phase := MediatorPhase.forwarded,
    from_route := scenarioFromRoute,
    from_transfer := scenarioTransfer,
    routes := [],
    outgoing_route := some scenarioOutgoingRoute,
    incoming_locks := [{ amount := 5, hashlock := 8, expiration := 40 }],
    outgoing_locks := [{ amount := 5, hashlock := 8, expiration := 35 },
      { amount := 6, hashlock := 9, expiration := 35 }],
    tried := [41],
    reveal_timeout_margin := 5 }

/-- Concrete item of type tag `0` missing the attribute `1`; scanning it
with a data dictionary naming attribute `1` raises `AttributeError`. -/
def itemMissingAttr : Item :=
  { tag := 0, val := Value.obj [] }

/-- Concrete item of type tag `0` whose attribute `1` holds the atom `1`. -/
def itemMatchingAttr : Item :=
  { tag := 0, val := Value.obj [(1, Value.atom 1)] }

/-- Concrete expected-data dictionary requiring attribute `1` to equal the
atom `1`. -/
def scenarioData : List (Nat × Pattern) :=
  [(1, Pattern.pval (Value.atom 1))]

/-- Concrete item list on which `must_contain_entry` raises: the item that
lacks the attribute precedes the matching one. -/
def scenarioRaisingItems : List Item :=
  [itemMissingAttr, itemMatchingAttr]

/-- Concrete item list on which `must_contain_entry` completes: an item of
another type, a mismatching item and a matching item of the right type. -/
def scenarioCleanItems : List Item :=
  [{ tag := 1, val := Value.obj [] },
   { tag := 0, val := Value.obj [(1, Value.atom 2)] },
   itemMatchingAttr]

/-! ## Helper lemmas -/

/-- Helper: the `while` loop of `wait_for_contract` answers `True` only after
some `getCode` call returned non-empty code. -/
lemma waitForContractLoop_true (code times : Nat → Nat)
    (timeout : Option Nat) :
    ∀ fuel k, waitForContractLoop code times timeout fuel k = some true →
      ∃ j, code j ≠ 0 := by
  intro fuel
  induction fuel with
  | zero => intro k h; simp [waitForContractLoop] at h
  | succ n ih =>
    intro k h
    by_cases hc : code k = 0
    · rw [waitForContractLoop, if_pos hc] at h
      by_cases hg : timeoutGuard timeout (times 0) (times (k + 1)) = true
      · rw [if_pos hg] at h; simp at h
      · rw [if_neg hg] at h
        exact ih (k + 1) h
    · exact ⟨k, hc⟩

/-- Helper: a path accepted by `assert_path_mediated_transfer` satisfies
`pathPairOk` on every adjacent pair. -/
lemma assert_path_chain (ts : List MediatedTransfer)
    (h : assert_path_mediated_transfer ts = true) :
    List.Chain' (fun a b => pathPairOk a b = true) ts := by
  induction ts with
  | nil => exact List.chain'_nil
  | cons a rest ih =>
    cases rest with
    | nil => simp
    | cons b rest2 =>
      rw [assert_path_mediated_transfer, Bool.and_eq_true] at h
      exact List.chain'_cons.mpr ⟨h.1, ih h.2⟩

/-! ## Claim theorems -/

/-- C9. Every `FlatList` instance (hence every instance of `ChannelList`,
`TokensList`, `AddressList`, `PartnersPerTokenList`, `EventsList`, which add
no behaviour) answers its `data` property with a fresh list equal to the
elements of the instance itself; `data` is a pure function of the instance,
so reading it leaves the instance unchanged. -/
theorem flatList_data_eq_elems (α : Type) (xs : FlatList α) :
    xs.data = xs.elems := by
  unfold FlatList.data
  induction xs.elems with
  | nil => rfl
  | cons a l ih => simp [List.foldr_cons, ih]

/-- C10. With a non-`None` timeout and a monotone clock,
`ConsoleTools.wait_for_contract` returns `False` on the first loop iteration
whenever the contract code is still empty and `start_time + timeout >
current_time` — it gives up while the timeout has not yet elapsed — and it
returns `True` only when some `getCode` query returned non-empty code. -/
theorem wait_for_contract_spec :
    (∀ (code times : Nat → Nat) (t fuel : Nat),
      times 0 ≤ times 1 → code 0 = 0 → times 1 < times 0 + t →
      wait_for_contract code times (some t) (fuel + 1) = some false) ∧
    (∀ (code times : Nat → Nat) (timeout : Option Nat) (fuel : Nat),
      wait_for_contract code times timeout fuel = some true →
      ∃ j, code j ≠ 0) := by
  constructor
  · intro code times t fuel hmono hcode hlt
    have ht : t ≠ 0 := by omega
    have hguard : timeoutGuard (some t) (times 0) (times 1) = true := by
      simp [timeoutGuard, ht]
      omega
    rw [wait_for_contract, waitForContractLoop, if_pos hcode]
    rw [if_pos hguard]
  · intro code times timeout fuel h
    exact waitForContractLoop_true code times timeout fuel 0 h

/-- C10 witness: with everywhere-empty code, the identity clock and timeout
5, the call returns `False` at once although the deadline `times 0 + 5 = 5`
is still ahead of `times 1 = 1`. -/
theorem wait_for_contract_spec_witness :
    wait_for_contract (fun _ => 0) (fun k => k) (some 5) 4 = some false :=
  wait_for_contract_spec.1 (fun _ => 0) (fun k => k) 5 3
    (by decide) rfl (by decide)

/-- C5. Every hop-by-hop path of `MediatedTransfer` messages accepted by
`assert_path_mediated_transfer` has strictly decreasing lock expirations:
each adjacent pair satisfies
`first.lock.expiration > second.lock.expiration`. -/
theorem path_expiration_strictly_decreasing (ts : List MediatedTransfer)
    (h : assert_path_mediated_transfer ts = true) :
    List.Chain' (fun a b => a.lock.expiration > b.lock.expiration) ts := by
  refine (assert_path_chain ts h).imp ?_
  intro a b hab
  rw [pathPairOk, Bool.and_eq_true, Bool.and_eq_true] at hab
  exact of_decide_eq_true hab.2

/-- C5 witness: a concrete two-hop path with expirations 20 > 15 is accepted
and the theorem yields the decreasing chain. -/
theorem path_expiration_strictly_decreasing_witness :
    List.Chain' (fun a b : MediatedTransfer =>
        a.lock.expiration > b.lock.expiration)
      ([{ identifier := 1, token := 2, lock := ⟨5, 9, 20⟩, target := 4,
          initiator := 3, sender := 3, recipient := 7 },
        { identifier := 1, token := 2, lock := ⟨5, 9, 15⟩, target := 4,
          initiator := 3, sender := 7, recipient := 4 }] :
        List MediatedTransfer) :=
  path_expiration_strictly_decreasing _ (by decide)

/-- C6. Every hop-by-hop path accepted by `assert_path_mediated_transfer`
preserves the transfer identity: each adjacent pair agrees on `identifier`,
`token`, `lock.amount`, `lock.hashlock`, `target` and `initiator`, and the
recipient of each message equals the sender of the next. -/
theorem path_preserves_transfer_identity (ts : List MediatedTransfer)
    (h : assert_path_mediated_transfer ts = true) :
    List.Chain' (fun a b =>
      a.identifier = b.identifier ∧ a.token = b.token ∧
      a.lock.amount = b.lock.amount ∧ a.lock.hashlock = b.lock.hashlock ∧
      a.target = b.target ∧ a.initiator = b.initiator ∧
      a.recipient = b.sender) ts := by
  refine (assert_path_chain ts h).imp ?_
  intro a b hab
  rw [pathPairOk, Bool.and_eq_true, Bool.and_eq_true] at hab
  have halmost := hab.1.1
  rw [mediated_transfer_almost_equal] at halmost
  simp only [Bool.and_eq_true, decide_eq_true_eq] at halmost
  exact ⟨halmost.1.1.1.1.1, halmost.1.1.1.1.2, halmost.1.1.1.2,
    halmost.1.1.2, halmost.1.2, halmost.2, of_decide_eq_true hab.1.2⟩

/-- C6 witness: the theorem applied to the same concrete two-hop path yields
the field agreements and the recipient/sender chaining. -/
theorem path_preserves_transfer_identity_witness :
    List.Chain' (fun a b : MediatedTransfer =>
      a.identifier = b.identifier ∧ a.token = b.token ∧
      a.lock.amount = b.lock.amount ∧ a.lock.hashlock = b.lock.hashlock ∧
      a.target = b.target ∧ a.initiator = b.initiator ∧
      a.recipient = b.sender)
      ([{ identifier := 1, token := 2, lock := ⟨5, 9, 20⟩, target := 4,
          initiator := 3, sender := 3, recipient := 7 },
        { identifier := 1, token := 2, lock := ⟨5, 9, 15⟩, target := 4,
          initiator := 3, sender := 7, recipient := 4 }] :
        List MediatedTransfer) :=
  path_preserves_transfer_identity _ (by decide)

/-- Helper: `next_route` returns the first qualifying route of the available
sequence — there is a decomposition of the sequence in which every route
before the returned one fails the qualification test. -/
lemma next_route_first_fit (available : List Route) (exclude : List Nat)
    (required : Nat) (r : Route)
    (h : next_route available exclude required = some r) :
    ∃ l₁ l₂, available = l₁ ++ r :: l₂ ∧
      routeQualifies r exclude required = true ∧
      ∀ x ∈ l₁, routeQualifies x exclude required = false := by
  induction available with
  | nil => simp [next_route] at h
  | cons a rest ih =>
    rw [next_route] at h
    by_cases hq : routeQualifies a exclude required = true
    · rw [if_pos hq] at h
      refine ⟨[], rest, ?_, ?_, ?_⟩
      · simp_all
      · cases h; exact hq
      · intro x hx; simp at hx
    · rw [if_neg hq] at h
      obtain ⟨l₁, l₂, heq, hr, hfail⟩ := ih h
      refine ⟨a :: l₁, l₂, by simp [heq], hr, ?_⟩
      intro x hx
      cases hx with
      | head => simpa using hq
      | tail _ hx2 => exact hfail x hx2

/-- C8. On `ActionInitInitiator` the initiator commits to the route that
appears first in `RoutesState.available` in the order supplied by the
router among those meeting the required balance (no exclusions apply to the
initiator): every route placed earlier by the router fails the balance
requirement, so no reordering by `available_balance` happens. -/
theorem initiator_commits_first_fit_route (amount hashlock expiration : Nat)
    (routes : RoutesState) (r : Route)
    (h : (initInitiator amount hashlock expiration routes).1.committed
      = some r) :
    ∃ l₁ l₂, routes.available = l₁ ++ r :: l₂ ∧
      routeQualifies r [] amount = true ∧
      ∀ x ∈ l₁, routeQualifies x [] amount = false := by
  rw [initInitiator] at h
  cases hnr : next_route routes.available [] amount with
  | none => rw [hnr] at h; simp at h
  | some r2 =>
    rw [hnr] at h
    have hr2 : r2 = r := by simpa using h
    subst hr2
    exact next_route_first_fit routes.available [] amount r2 hnr

/-- C8 witness: with a first route short of balance (3 < 5) and a second
route with enough balance, the initiator commits to the second — the first
in router order among the qualifying ones. -/
theorem initiator_commits_first_fit_route_witness :
    ∃ l₁ l₂, scenarioRoutes.available = l₁ ++ routeEnoughBalance :: l₂ ∧
      routeQualifies routeEnoughBalance [] 5 = true ∧
      ∀ x ∈ l₁, routeQualifies x [] 5 = false :=
  initiator_commits_first_fit_route 5 77 40 scenarioRoutes
    routeEnoughBalance (by decide)

/-- C4. `apply_balance_proof` accepts a proof only if its nonce is strictly
greater than the last accepted nonce for that sender on that channel; a
replayed or out-of-order proof (with a valid signature) is rejected with
`StaleNonce`; and every rejection leaves the channel state completely
unchanged at the ledger step. -/
theorem balance_proof_nonce_monotone (ch : Channel) (p : BalanceProof) :
    (∀ ch2, apply_balance_proof ch p = Except.ok ch2 →
      ch.own_nonce < p.nonce ∧ ch2.own_nonce = p.nonce) ∧
    (p.signature_valid = true → p.nonce ≤ ch.own_nonce →
      apply_balance_proof ch p = Except.error ChannelError.StaleNonce) ∧
    (∀ e, apply_balance_proof ch p = Except.error e →
      channelStep ch (ChannelOp.applyProof p) = ch) := by
  refine ⟨?_, ?_, ?_⟩
  · intro ch2 hok
    rw [apply_balance_proof] at hok
    split at hok
    · cases hok
    · split at hok
      · cases hok
      · split at hok
        · cases hok
        · split at hok
          · cases hok
          · cases hok
            constructor
            · omega
            · rfl
  · intro hsig hle
    rw [apply_balance_proof]
    rw [if_neg (by simp [hsig]), if_pos hle]
  · intro e herr
    rw [channelStep, herr]

/-- C4 witness: on a channel with last accepted nonce 4, a valid replayed
proof with nonce 4 is rejected with `StaleNonce`, an accepted proof with
nonce 5 records the strictly larger nonce, and the rejection leaves the
ledger step's channel unchanged. -/
theorem balance_proof_nonce_monotone_witness :
    apply_balance_proof scenarioChannel scenarioStaleProof
      = Except.error ChannelError.StaleNonce ∧
    channelStep scenarioChannel (ChannelOp.applyProof scenarioStaleProof)
      = scenarioChannel := by
  have h1 := (balance_proof_nonce_monotone scenarioChannel
    scenarioStaleProof).2.1 rfl (by decide)
  exact ⟨h1, (balance_proof_nonce_monotone scenarioChannel
    scenarioStaleProof).2.2 ChannelError.StaleNonce h1⟩

/-- Helper: summing a mapped amount over a filtered lock list never exceeds
the sum over the full list. -/
lemma sum_map_filter_le (p : Lock → Bool) (locks : List Lock) :
    ((locks.filter p).map Lock.amount).sum ≤
      (locks.map Lock.amount).sum := by
  induction locks with
  | nil => simp
  | cons a l ih =>
    rw [List.filter_cons]
    by_cases hp : p a
    · simp only [hp, if_pos]
      simp only [List.map_cons, List.sum_cons]
      omega
    · simp only [hp, Bool.false_eq_true, if_neg, not_false_iff]
      simp only [List.map_cons, List.sum_cons]
      omega

/-- Helper: every single ledger step preserves the no-overspend
invariant. -/
lemma channelStep_preserves_invariant (ch : Channel) (op : ChannelOp)
    (hinv : channelInvariant ch) :
    channelInvariant (channelStep ch op) := by
  cases op with
  | deposit own t =>
    rw [channelStep, apply_deposit]
    by_cases h : own = true
    · rw [if_pos h]
      show ch.own_transferred + lockSum ch
        ≤ max ch.own_deposit t + ch.partner_deposit
      have hle := Nat.le_max_left ch.own_deposit t
      unfold channelInvariant at hinv
      omega
    · rw [if_neg h]
      show ch.own_transferred + lockSum ch
        ≤ ch.own_deposit + max ch.partner_deposit t
      have hle := Nat.le_max_left ch.partner_deposit t
      unfold channelInvariant at hinv
      omega
  | addLock l =>
    rw [channelStep, add_lock]
    by_cases h1 : hasLock ch l.hashlock = true
    · rw [if_pos h1]
      exact hinv
    · rw [if_neg h1]
      by_cases h2 : ch.own_deposit + ch.partner_deposit
          < ch.own_transferred + lockSum ch + l.amount
      · rw [if_pos h2]
        exact hinv
      · rw [if_neg h2]
        unfold channelInvariant lockSum at hinv h2 ⊢
        simp only [List.map_append, List.sum_append, List.map_cons,
          List.map_nil, List.sum_cons, List.sum_nil]
        omega
  | removeLock hl =>
    rw [channelStep, remove_lock]
    by_cases h1 : hasLock ch hl = true
    · rw [if_pos h1]
      have hle := sum_map_filter_le (fun l => ¬ l.hashlock = hl)
        ch.pending_locks
      unfold channelInvariant lockSum at hinv ⊢
      simp only
      omega
    · rw [if_neg h1]
      exact hinv
  | applyProof p =>
    rw [channelStep, apply_balance_proof]
    by_cases h1 : p.signature_valid = false
    · rw [if_pos h1]
      exact hinv
    · rw [if_neg h1]
      by_cases h2 : p.nonce ≤ ch.own_nonce
      · rw [if_pos h2]
        exact hinv
      · rw [if_neg h2]
        by_cases h3 : p.transferred_amount < ch.own_transferred
        · rw [if_pos h3]
          exact hinv
        · rw [if_neg h3]
          by_cases h4 : ch.own_deposit + ch.partner_deposit
              < p.transferred_amount + lockSum ch
          · rw [if_pos h4]
            exact hinv
          · rw [if_neg h4]
            unfold channelInvariant lockSum at hinv h4 ⊢
            simp only
            omega

/-- C1. No-overspend invariant: every channel state reachable from the
freshly opened channel by any sequence of applied deposits, lock
additions/removals and accepted balance proofs (rejected operations leave
the state unchanged) satisfies `own_transferred + sum of pending lock
amounts ≤ own_deposit + partner_deposit`. -/
theorem channel_no_overspend (ops : List ChannelOp) :
    channelInvariant (runChannelOps initialChannel ops) := by
  have hgen : ∀ (l : List ChannelOp) (ch : Channel), channelInvariant ch →
      channelInvariant (runChannelOps ch l) := by
    intro l
    induction l with
    | nil => intro ch h; exact h
    | cons op rest ih =>
      intro ch h
      exact ih (channelStep ch op)
        (channelStep_preserves_invariant ch op h)
  refine hgen ops initialChannel ?_
  unfold channelInvariant initialChannel lockSum
  simp

/-- Helper: the forwarding step of the mediator never emits a
`SendRevealSecret` event. -/
lemma mediatorForward_no_reveal (s : MediatorState) (a b : Nat) :
    Event.SendRevealSecret a b ∉ (mediatorForward s).2 := by
  rw [mediatorForward]
  cases next_route s.routes (mediatorExclude s) s.from_transfer.amount <;>
    simp

/-- C2. Mediator safety: at any step of the mediator state machine that
emits `SendRevealSecret` to the upstream (`from_route`) peer, the outgoing
lock matching the revealed secret's hashlock has already been removed from
the outgoing channel in that very step's post-state — securing the outgoing
unlock (balance proof applied, lock removed) never comes after the upstream
reveal. -/
theorem mediator_reveal_upstream_after_unlock (h : Nat → Nat)
    (s : MediatorState) (input : MediatorInput) (secret : Nat)
    (hmem : Event.SendRevealSecret s.from_route.node_address secret ∈
      (mediatorStep h s input).2) :
    lockListHas (mediatorStep h s input).1.outgoing_locks (h secret)
      = false := by
  obtain ⟨ph, fr, ft, rts, og, il, ol, tr, m⟩ := s
  cases input with
  | initMediator =>
    cases ph with
    | init =>
      simp only [mediatorStep] at hmem ⊢
      exact absurd hmem (mediatorForward_no_reveal _ _ _)
    | forwarded => simp [mediatorStep] at hmem
    | revealing => simp [mediatorStep] at hmem
    | completed => simp [mediatorStep] at hmem
    | failed => simp [mediatorStep] at hmem
  | receiveSecretRevealDownstream sec =>
    cases ph with
    | forwarded =>
      simp only [mediatorStep] at hmem ⊢
      by_cases hg : h sec = ft.hashlock
      · rw [if_pos hg] at hmem ⊢
        simp only [List.mem_cons, List.mem_singleton, List.not_mem_nil,
          or_false] at hmem
        rcases hmem with hmem | hmem
        · cases hmem
        · have hsec : secret = sec := by
            cases hmem
            rfl
          subst hsec
          simp only [lockListHas, List.any_eq_false]
          intro l hl
          rw [List.mem_filter] at hl
          have hne : ¬ l.hashlock = ft.hashlock := by simpa using hl.2
          rw [hg]
          simpa using hne
      · rw [if_neg hg] at hmem
        simp at hmem
    | init => simp [mediatorStep] at hmem
    | revealing => simp [mediatorStep] at hmem
    | completed => simp [mediatorStep] at hmem
    | failed => simp [mediatorStep] at hmem
  | receiveBalanceProofUpstream =>
    cases ph with
    | init => simp [mediatorStep] at hmem
    | forwarded => simp [mediatorStep] at hmem
    | revealing => simp [mediatorStep] at hmem
    | completed => simp [mediatorStep] at hmem
    | failed => simp [mediatorStep] at hmem
  | blockAdvance n =>
    cases ph with
    | forwarded =>
      simp only [mediatorStep] at hmem ⊢
      cases hexp : outgoingExpiration
          ⟨MediatorPhase.forwarded, fr, ft, rts, og, il, ol, tr, m⟩ with
      | none =>
        rw [hexp] at hmem
        simp at hmem
      | some exp =>
        rw [hexp] at hmem
        dsimp only at hmem ⊢
        by_cases hlt : exp < n
        · rw [if_pos hlt] at hmem ⊢
          by_cases halive : n < ft.expiration
          · rw [if_pos halive] at hmem
            exact absurd hmem (mediatorForward_no_reveal _ _ _)
          · rw [if_neg halive] at hmem
            simp at hmem
        · rw [if_neg hlt] at hmem
          simp at hmem
    | init => simp [mediatorStep] at hmem
    | revealing => simp [mediatorStep] at hmem
    | completed => simp [mediatorStep] at hmem
    | failed => simp [mediatorStep] at hmem

/-- C2 witness: the concrete forwarded mediator, on a downstream reveal of
secret `7` (hashing to `8` under the successor hash), emits the upstream
reveal and its post-state outgoing channel no longer holds any lock with
hashlock `8`. -/
theorem mediator_reveal_upstream_after_unlock_witness :
    lockListHas
      (mediatorStep Nat.succ scenarioMediator
        (MediatorInput.receiveSecretRevealDownstream 7)).1.outgoing_locks
      (Nat.succ 7) = false :=
  mediator_reveal_upstream_after_unlock Nat.succ scenarioMediator
    (MediatorInput.receiveSecretRevealDownstream 7) 7 (by decide)

/-- C3. Dispatch determinism and replay idempotence: `dispatch` is embedded
as a pure total function, so identical `(aggregate_state, state_change)`
inputs yield identical `(new_state, events)` outputs, and two full replays
of the same ordered WAL log from the empty initial aggregate state yield
identical aggregate states. -/
theorem dispatch_deterministic_replay_idempotent :
    (∀ (s1 s2 : AggregateState) (c1 c2 : StateChange), s1 = s2 → c1 = c2 →
      dispatch s1 c1 = dispatch s2 c2) ∧
    (∀ (log : List StateChange) (first second : AggregateState),
      first = replay log → second = replay log → first = second) := by
  constructor
  · intro s1 s2 c1 c2 hs hc
    rw [hs, hc]
  · intro log first second h1 h2
    rw [h1, h2]

/-- C3 witness: dispatching a concrete block state change twice on the empty
aggregate state gives the same output, and two replays of a concrete
two-entry log coincide. -/
theorem dispatch_deterministic_replay_idempotent_witness :
    dispatch emptyAggregate (StateChange.block 3)
      = dispatch emptyAggregate (StateChange.block 3) ∧
    replay [StateChange.block 3, StateChange.unknown]
      = replay [StateChange.block 3, StateChange.unknown] :=
  ⟨dispatch_deterministic_replay_idempotent.1 emptyAggregate emptyAggregate
      (StateChange.block 3) (StateChange.block 3) rfl rfl,
   dispatch_deterministic_replay_idempotent.2
      [StateChange.block 3, StateChange.unknown] _ _ rfl rfl⟩

/-- Helper: when `check_nested_attrs` answers at all, it answers `True`
exactly on the items matched by the spec-side recursive-subset predicate
`matchesData`; when it raises, the item does not match. -/
theorem check_eq_matches : ∀ (item : Value) (data : List (Nat × Pattern)),
    (check_nested_attrs item data = some true ↔
      matchesData item data = true)
  | _, [] => by simp [check_nested_attrs, matchesData]
  | item, (name, p) :: rest => by
    rw [check_nested_attrs, matchesData]
    cases hget : getattr item name with
    | none => simp
    | some iv =>
      cases p with
      | pval v =>
        by_cases hv : iv = v
        · have hrest := check_eq_matches item rest
          simp [hv, hrest]
        · simp [hv]
      | pdict d =>
        cases hcd : check_nested_attrs iv d with
        | none =>
          have hiv := check_eq_matches iv d
          rw [hcd] at hiv
          have hm : matchesData iv d = false := by
            cases hmm : matchesData iv d
            · rfl
            · have := hiv.mpr hmm
              simp at this
          simp [hcd, hm]
        | some b =>
          cases b with
          | false =>
            have hiv := check_eq_matches iv d
            rw [hcd] at hiv
            have hm : matchesData iv d = false := by
              cases hmm : matchesData iv d
              · rfl
              · have := hiv.mpr hmm
                simp at this
            simp [hcd, hm]
          | true =>
            have hiv := (check_eq_matches iv d).mp hcd
            have hrest := check_eq_matches item rest
            simp [hcd, hiv, hrest]
termination_by _ data => sizeOf data

/-- C7 counterexample: on an item list whose first element of the requested
type lacks the attribute named by `data`, `must_contain_entry` propagates an
`AttributeError` (modelled `none`) instead of returning `True`, although a
later element matches — so the claimed equivalence fails as stated. -/
theorem must_contain_entry_claim_counterexample :
    ¬ (must_contain_entry scenarioRaisingItems 0 scenarioData = some true ↔
      ∃ i ∈ scenarioRaisingItems, i.tag = 0 ∧
        matchesData i.val scenarioData = true) := by
  intro hiff
  have hex : ∃ i ∈ scenarioRaisingItems, i.tag = 0 ∧
      matchesData i.val scenarioData = true := by
    refine ⟨itemMatchingAttr, ?_, rfl, ?_⟩
    · simp [scenarioRaisingItems]
    · simp [itemMatchingAttr, scenarioData, matchesData, getattr,
        List.find?]
  have heval : must_contain_entry scenarioRaisingItems 0 scenarioData
      = none := by
    simp [scenarioRaisingItems, itemMissingAttr, itemMatchingAttr,
      scenarioData, must_contain_entry, check_nested_attrs, getattr,
      List.find?]
  have hsome := hiff.mpr hex
  rw [heval] at hsome
  exact Option.noConfusion hsome

/-- C7 (amended). Whenever the scan completes without an `AttributeError`
(the result is a boolean), `must_contain_entry(item_list, type_, data)`
returns `True` exactly when `item_list` contains an element of type `type_`
whose attributes recursively equal every `(name, value)` pair of `data`;
extra attributes, repeated entries and entries of other types never affect
the result, and with empty `data` the check reduces to the existence of an
instance of the type. -/
theorem must_contain_entry_subset_match (items : List Item) (tag : Nat)
    (data : List (Nat × Pattern)) :
    must_contain_entry items tag data ≠ none →
    (must_contain_entry items tag data = some true ↔
      ∃ i ∈ items, i.tag = tag ∧ matchesData i.val data = true) := by
  induction items with
  | nil =>
    intro _
    simp [must_contain_entry]
  | cons i rest ih =>
    intro hcomplete
    rw [must_contain_entry] at hcomplete ⊢
    by_cases ht : i.tag = tag
    · rw [if_pos ht] at hcomplete ⊢
      cases hc : check_nested_attrs i.val data with
      | none =>
        rw [hc] at hcomplete
        simp at hcomplete
      | some b =>
        rw [hc] at hcomplete
        cases b with
        | true =>
          dsimp only at hcomplete ⊢
          refine Iff.intro (fun _ => ?_) (fun _ => rfl)
          exact ⟨i, List.mem_cons_self i rest, ht,
            (check_eq_matches i.val data).mp hc⟩
        | false =>
          dsimp only at hcomplete ⊢
          have hmi : ¬ matchesData i.val data = true := by
            intro hm
            have := (check_eq_matches i.val data).mpr hm
            rw [hc] at this
            simp at this
          rw [ih hcomplete]
          simp only [List.mem_cons]
          constructor
          · rintro ⟨j, hj, hjt, hjm⟩
            exact ⟨j, Or.inr hj, hjt, hjm⟩
          · rintro ⟨j, hj | hj, hjt, hjm⟩
            · subst hj
              exact absurd hjm hmi
            · exact ⟨j, hj, hjt, hjm⟩
    · rw [if_neg ht] at hcomplete ⊢
      rw [ih hcomplete]
      simp only [List.mem_cons]
      constructor
      · rintro ⟨j, hj, hjt, hjm⟩
        exact ⟨j, Or.inr hj, hjt, hjm⟩
      · rintro ⟨j, hj | hj, hjt, hjm⟩
        · subst hj
          exact absurd hjt ht
        · exact ⟨j, hj, hjt, hjm⟩

/-- C7 witness: on a clean concrete item list (an item of another type, a
mismatching and a matching item of type `0`) the scan completes and the
amended equivalence is obtained at that input. -/
theorem must_contain_entry_subset_match_witness :
    must_contain_entry scenarioCleanItems 0 scenarioData = some true ↔
      ∃ i ∈ scenarioCleanItems, i.tag = 0 ∧
        matchesData i.val scenarioData = true :=
  must_contain_entry_subset_match scenarioCleanItems 0 scenarioData
    (by simp [scenarioCleanItems, itemMatchingAttr, scenarioData,
      must_contain_entry, check_nested_attrs, getattr, List.find?])

end Raiden
